import Mathlib

/-!
Verification of the criminal-case workflow engine
(`src/backend/cases` and `src/backend/investigations`).

Each definition is a shallow embedding of one source function; theorems
check the spec's claims against those definitions.
-/

set_option maxRecDepth 4000

/-! ## Basic enumerations (cases/constants.py, investigations/models.py) -/

/-- `CrimeLevel` choices (cases/constants.py). -/
inductive CrimeLevel
| critical
| level1
| level2
| level3
deriving DecidableEq, Repr

/-- `CRIME_LEVEL_DEGREE` (cases/constants.py): critical=4, level_1=3, level_2=2, level_3=1. -/
def crimeLevelDegree : CrimeLevel → Nat
| .critical => 4
| .level1 => 3
| .level2 => 2
| .level3 => 1

/-- `CaseStatus` choices (cases/constants.py). -/
inductive CaseStatus
| draft
| active
| closed
deriving DecidableEq, Repr

/-- `TrialVerdict` choices (used by `TrialVerdictWriteSerializer`). -/
inductive Verdict
| guilty
| innocent
deriving DecidableEq, Repr

/-! ## Trial verdict endpoint (cases/views.py, `TrialVerdictView.post`) -/

/-- Interrogation decision slots read by the trial gate
(investigations/models.py `Interrogation`): tri-state booleans. -/
structure Interr where
  captainFinalDecision : Option Bool
  chiefDecision : Option Bool
deriving DecidableEq, Repr

/-- A stored `Trial` row: verdict plus punishment fields.
`verdict = none` means no verdict has been written yet. -/
structure TrialRec where
  verdict : Option Verdict
  punishmentTitle : String
  punishmentDescription : String
deriving DecidableEq, Repr

/-- The state visible to `TrialVerdictView.post` for one (case, suspect) pair. -/
structure TrialState where
  crimeLevel : CrimeLevel
  interrogation : Option Interr
  trial : Option TrialRec
deriving DecidableEq, Repr

/-- Request body of the trial verdict endpoint. -/
structure VerdictPayload where
  verdict : Verdict
  punishmentTitle : String
  punishmentDescription : String
deriving DecidableEq, Repr

/-- Error codes the trial verdict endpoint can answer with. -/
inductive TrialErr
| missingInterrogation
| captainApprovalRequired
| chiefApprovalRequired
| validationError
| trialVerdictAlreadySubmitted
deriving DecidableEq, Repr

/-- Python `str.strip()`: drop leading and trailing whitespace. -/
def pyStrip (s : String) : String :=
  ⟨((s.data.dropWhile Char.isWhitespace).reverse.dropWhile Char.isWhitespace).reverse⟩

/-- Python `str.lower()` (ASCII model). -/
def pyLower (s : String) : String :=
  ⟨s.data.map Char.toLower⟩

/-- `TrialVerdictWriteSerializer.validate` (cases/serializers.py): guilty requires
non-blank stripped punishment title and description; innocent forces both empty. -/
def validateVerdictPayload (p : VerdictPayload) : Except TrialErr VerdictPayload :=
  let title := pyStrip p.punishmentTitle
  let desc := pyStrip p.punishmentDescription
  match p.verdict with
  | .guilty =>
      if title = "" then .error .validationError
      else if desc = "" then .error .validationError
      else .ok ⟨.guilty, title, desc⟩
  | .innocent => .ok ⟨.innocent, "", ""⟩

instance {ε α : Type} [DecidableEq ε] [DecidableEq α] : DecidableEq (Except ε α) := fun a b =>
  match a, b with
  | .error x, .error y =>
      if h : x = y then .isTrue (by rw [h]) else .isFalse (by simp [h])
  | .error _, .ok _ => .isFalse (by simp)
  | .ok _, .error _ => .isFalse (by simp)
  | .ok x, .ok y =>
      if h : x = y then .isTrue (by rw [h]) else .isFalse (by simp [h])

/-- Result of a trial verdict POST: the resulting stored state and the response. -/
structure TrialResult where
  state : TrialState
  response : Except TrialErr TrialRec
deriving DecidableEq, Repr

/-- Modelled from the spec: the `Trial` model class is absent from
src/backend/cases/models.py (views.py imports it but the file stops before its
definition).  Spec §3: the verdict is "set exactly once — immutable after first
write"; §4.3: a second write fails with `TrialVerdictAlreadySubmitted` — the
repository's own test (cases/tests.py,
`test_trial_verdict_cannot_be_resubmitted_for_same_suspect`) asserts the 400
with that code.  Writing validated verdict fields onto an existing trial whose
verdict is already set is therefore rejected and leaves the row unchanged. -/
def trialSaveVerdict (existing : Option TrialRec) (q : VerdictPayload) :
    Except TrialErr TrialRec :=
  match existing with
  | some t =>
      if t.verdict.isSome then .error .trialVerdictAlreadySubmitted
      else .ok ⟨some q.verdict, q.punishmentTitle, q.punishmentDescription⟩
  | none => .ok ⟨some q.verdict, q.punishmentTitle, q.punishmentDescription⟩

/-- `TrialVerdictView.post` (cases/views.py lines 140-188): gate on interrogation
presence, captain decision, chief decision (critical only), then validate the
payload and write the verdict (via `trialSaveVerdict`). -/
def trialVerdictPost (st : TrialState) (p : VerdictPayload) : TrialResult :=
  match st.interrogation with
  | none => ⟨st, .error .missingInterrogation⟩
  | some itg =>
      if itg.captainFinalDecision ≠ some true then
        ⟨st, .error .captainApprovalRequired⟩
      else if st.crimeLevel = .critical ∧ itg.chiefDecision ≠ some true then
        ⟨st, .error .chiefApprovalRequired⟩
      else
        match validateVerdictPayload p with
        | .error e => ⟨st, .error e⟩
        | .ok q =>
            match trialSaveVerdict st.trial q with
            | .error e => ⟨st, .error e⟩
            | .ok t => ⟨{ st with trial := some t }, .ok t⟩

/-! ## Complaint workflow (cases/views.py `ComplaintViewSet`,
cases/serializers.py `ComplaintCreateSerializer`) -/

/-- `ComplaintStatus` choices (cases/constants.py). -/
inductive ComplaintStatus
| draft
| submitted
| cadetRejected
| cadetApproved
| officerRejected
| officerApproved
| invalid
deriving DecidableEq, Repr

/-- `ComplaintComplainantStatus` choices (cases/constants.py). -/
inductive ComplainantStatus
| pending
| approved
| rejected
deriving DecidableEq, Repr

/-- A `Complaint` row (cases/models.py); text fields with no workflow logic
(title, description) and reviewer stamps are omitted. -/
structure ComplaintRec where
  currentStatus : ComplaintStatus
  invalidAttempts : Nat
  cadetMessage : String
  officerMessage : String
  crimeLevel : CrimeLevel
  caseId : Option Nat
deriving DecidableEq, Repr

/-- A `Case` row as created by complaint officer-approval (status `active`);
title/description/created_by carry no workflow logic and are omitted. -/
structure CaseRec where
  id : Nat
  crimeLevel : CrimeLevel
  status : CaseStatus
deriving DecidableEq, Repr

/-- The storage visible to the complaint workflow: the complaint, its
`ComplaintComplainant` entries (user id, status), the created cases and
`CaseParticipant` rows ((case id, user id)). -/
structure ComplaintWorld where
  complaint : ComplaintRec
  complainants : List (Nat × ComplainantStatus)
  cases : List CaseRec
  participants : List (Nat × Nat)
  nextCaseId : Nat
deriving DecidableEq, Repr

/-- A review decision payload value (`approve` / `reject`). -/
inductive Decision
| approve
| reject
deriving DecidableEq, Repr

/-- Complaint endpoint error codes. -/
inductive CompErr
| invalidState
| complaintInvalid
| validationError
deriving DecidableEq, Repr

/-- `ComplaintCreateSerializer.create` (cases/serializers.py lines 68-99): the
creator gets an `approved` complainant entry; the deduplicated additional ids
(skipping the creator and unknown users) get `pending` entries.  Python iterates
the id set in unspecified order; `eraseDups` fixes one order, which no claim
depends on. -/
def complaintCreate (creator : Nat) (cl : CrimeLevel) (additional : List Nat)
    (existingUsers : List Nat) : ComplaintWorld :=
  { complaint := ⟨.submitted, 0, "", "", cl, none⟩
    complainants := (creator, ComplainantStatus.approved) ::
      ((additional.eraseDups.filter
          (fun uid => uid ≠ creator ∧ uid ∈ existingUsers)).map
        (fun uid => (uid, ComplainantStatus.pending)))
    cases := []
    participants := []
    nextCaseId := 0 }

/-- Bulk complainant approve/reject inside cadet review (cases/views.py lines
379-390): approval list applied first, then rejection list (rejection wins when
a user id is in both). -/
def bulkComplainantUpdate (entries : List (Nat × ComplainantStatus))
    (approveIds rejectIds : List Nat) : List (Nat × ComplainantStatus) :=
  entries.map (fun e =>
    let e1 := if e.1 ∈ approveIds then (e.1, ComplainantStatus.approved) else e
    if e1.1 ∈ rejectIds then (e1.1, ComplainantStatus.rejected) else e1)

/-- `ComplaintViewSet.cadet_review` (cases/views.py lines 348-402). -/
def cadetReview (w : ComplaintWorld) (decision : Decision) (message : String)
    (approveIds rejectIds : List Nat) : ComplaintWorld × Option CompErr :=
  if w.complaint.currentStatus ≠ .submitted ∧ w.complaint.currentStatus ≠ .officerRejected then
    (w, some .invalidState)
  else if w.complaint.currentStatus = .invalid then
    (w, some .complaintInvalid)
  else
    let msg := pyStrip message
    if decision = .reject ∧ msg = "" then (w, some .validationError)
    else
      let complainants := bulkComplainantUpdate w.complainants approveIds rejectIds
      match decision with
      | .reject =>
          ({ w with
              complaint := { w.complaint with currentStatus := .cadetRejected, cadetMessage := msg }
              complainants := complainants }, none)
      | .approve =>
          ({ w with
              complaint := { w.complaint with currentStatus := .cadetApproved, cadetMessage := "" }
              complainants := complainants }, none)

/-- `ComplaintViewSet.officer_review` (cases/views.py lines 404-464): rejection
stores the message; approval sets `officer_approved` and, when no case is linked
yet, creates one `active` Case and one participant per approved complainant. -/
def officerReview (w : ComplaintWorld) (decision : Decision) (message : String) :
    ComplaintWorld × Option CompErr :=
  if w.complaint.currentStatus ≠ .cadetApproved then
    (w, some .invalidState)
  else if w.complaint.currentStatus = .invalid then
    (w, some .complaintInvalid)
  else
    let msg := pyStrip message
    if decision = .reject ∧ msg = "" then (w, some .validationError)
    else
      match decision with
      | .reject =>
          ({ w with
              complaint := { w.complaint with currentStatus := .officerRejected, officerMessage := msg } },
            none)
      | .approve =>
          let c1 := { w.complaint with
            currentStatus := ComplaintStatus.officerApproved, officerMessage := "" }
          match w.complaint.caseId with
          | some i => ({ w with complaint := { c1 with caseId := some i } }, none)
          | none =>
              let cid := w.nextCaseId
              let newParts :=
                (w.complainants.filter (fun e => e.2 = ComplainantStatus.approved)).map
                  (fun e => (cid, e.1))
              ({ w with
                  complaint := { c1 with caseId := some cid }
                  cases := w.cases ++ [⟨cid, w.complaint.crimeLevel, CaseStatus.active⟩]
                  participants := w.participants ++ newParts
                  nextCaseId := cid + 1 }, none)

/-- `ComplaintViewSet.resubmit` (cases/views.py lines 310-346): only from
`cadet_rejected`; increments `invalid_attempts`; on reaching 3, forces
`invalid`, otherwise returns to `submitted` and clears the cadet message.
The optional content update is modelled by the crime level field. -/
def complaintResubmit (w : ComplaintWorld) (newLevel : Option CrimeLevel) :
    ComplaintWorld × Option CompErr :=
  if w.complaint.currentStatus ≠ .cadetRejected then
    (w, some .invalidState)
  else if w.complaint.currentStatus = .invalid ∨ 3 ≤ w.complaint.invalidAttempts then
    (w, some .complaintInvalid)
  else
    let c0 := match newLevel with
      | some cl => { w.complaint with crimeLevel := cl }
      | none => w.complaint
    let c1 := { c0 with invalidAttempts := c0.invalidAttempts + 1 }
    if 3 ≤ c1.invalidAttempts then
      ({ w with complaint := { c1 with currentStatus := .invalid } }, none)
    else
      ({ w with complaint := { c1 with currentStatus := .submitted, cadetMessage := "" } }, none)

/-- One complaint-workflow request. -/
inductive CompOp
| cadet (d : Decision) (msg : String) (approveIds rejectIds : List Nat)
| officer (d : Decision) (msg : String)
| resubmit (cl : Option CrimeLevel)

/-- Dispatch one complaint-workflow request. -/
def applyCompOp (w : ComplaintWorld) : CompOp → ComplaintWorld × Option CompErr
| .cadet d m a r => cadetReview w d m a r
| .officer d m => officerReview w d m
| .resubmit cl => complaintResubmit w cl

/-- Run a sequence of complaint-workflow requests (errors leave state unchanged). -/
def runCompOps (w : ComplaintWorld) (ops : List CompOp) : ComplaintWorld :=
  ops.foldl (fun w op => (applyCompOp w op).1) w

/-- Commit points of `ComplaintViewSet.officer_review`: the whole handler body
runs inside a single `transaction.atomic()` block (cases/views.py line 427), so
either nothing is committed (error) or the complete result is. -/
def officerReviewCommits (w : ComplaintWorld) (d : Decision) (m : String) :
    List ComplaintWorld :=
  match officerReview w d m with
  | (_, some _) => []
  | (w', none) => [w']

/-- Durable state if execution stops after the first `k` commits of an officer
review. -/
def officerStateAfter (w : ComplaintWorld) (d : Decision) (m : String) (k : Nat) :
    ComplaintWorld :=
  (((officerReviewCommits w d m).take k).getLast?).getD w

/-! ## Scene report workflow (cases/serializers.py `SceneReportCreateSerializer.create`,
cases/views.py `SceneReportViewSet.approve`) -/

/-- `SceneReportStatus` choices (cases/constants.py). -/
inductive SceneReportStatus
| pending
| approved
deriving DecidableEq, Repr

/-- The owned Case fields touched by the scene-report workflow. -/
structure SRCase where
  status : CaseStatus
  formedAt : Option Nat
deriving DecidableEq, Repr

/-- A `SceneReport` with its one-to-one Case.  `formedWrites` counts the writes
to the case's `formed_at` field (instrumentation for the exactly-once claim);
witness rows carry no workflow logic and are omitted. -/
structure SceneReportSt where
  status : SceneReportStatus
  ownedCase : SRCase
  formedWrites : Nat
deriving DecidableEq, Repr

/-- Scene-report endpoint error code. -/
inductive SceneErr
| alreadyApproved
deriving DecidableEq, Repr

/-- `SceneReportCreateSerializer.create` (cases/serializers.py lines 195-231):
a draft Case plus a pending report; when the submitter holds the auto-approve
capability, the report is approved and the Case activated (with `formed_at`
stamped) in the same request. -/
def sceneReportCreate (autoApprove : Bool) (now : Nat) : SceneReportSt :=
  if autoApprove then ⟨.approved, ⟨.active, some now⟩, 1⟩
  else ⟨.pending, ⟨.draft, none⟩, 0⟩

/-- `SceneReportViewSet.approve` (cases/views.py lines 518-540): an already
approved report errors with `already_approved`; otherwise the report is
approved and its Case set `active` with `formed_at` stamped. -/
def sceneReportApprove (st : SceneReportSt) (now : Nat) : SceneReportSt × Option SceneErr :=
  if st.status = .approved then (st, some .alreadyApproved)
  else (⟨.approved, ⟨.active, some now⟩, st.formedWrites + 1⟩, none)

/-- Run a sequence of approve requests (at the given times). -/
def runSceneApproves (st : SceneReportSt) (times : List Nat) : SceneReportSt :=
  times.foldl (fun s t => (sceneReportApprove s t).1) st

/-! ## Tips and rewards (investigations/views.py, investigations/serializers.py) -/

/-- `TipStatus` choices (investigations/models.py). -/
inductive TipStatus
| submitted
| officerRejected
| forwardedToDetective
| detectiveRejected
| approved
deriving DecidableEq, Repr

/-- The per-suspect data consumed by the most-wanted metric of a single suspect. -/
structure SuspectMetricInput where
  caseClosed : Bool
  caseLevel : CrimeLevel
  daysSinceProposal : Nat
deriving DecidableEq, Repr

/-- Modelled from the spec: `_compute_most_wanted_metrics` is called at
investigations/views.py line 1062 but defined nowhere under src/.  Spec §4.5
applied to one suspect: a closed case contributes 0 days, an open one
max(1, days since proposal); degree is the crime-level degree; ranking is
days × degree and the reward amount is ranking × 20,000,000.  Returns
(days, degree, ranking, reward_amount) as the call site unpacks. -/
def computeMostWantedMetrics (s : SuspectMetricInput) : Nat × Nat × Nat × Nat :=
  let days := if s.caseClosed then 0 else max 1 s.daysSinceProposal
  let degree := crimeLevelDegree s.caseLevel
  let ranking := days * degree
  (days, degree, ranking, ranking * 20000000)

/-- A `Reward` row (investigations/models.py): code and amount, written once. -/
structure RewardRec where
  rewardCode : String
  rewardAmount : Nat
deriving DecidableEq, Repr

/-- A `Tip` row with its optional case/suspect references and owned reward;
free-text details and reviewer stamps are omitted. -/
structure TipRec where
  status : TipStatus
  suspect : Option SuspectMetricInput
  caseLevel : Option CrimeLevel
  reward : Option RewardRec
  detectiveMessage : String
deriving DecidableEq, Repr

/-- Tip endpoint error codes. -/
inductive TipErr
| invalidState
| validationError
deriving DecidableEq, Repr

/-- The reward-amount derivation of the detective-approve branch
(investigations/views.py lines 1058-1069): base 20,000,000; a referenced
suspect's most-wanted reward amount when positive; else, for a case-only tip,
crime degree × 20,000,000. -/
def tipRewardAmount (t : TipRec) : Nat :=
  match t.suspect with
  | some s =>
      let m := computeMostWantedMetrics s
      if 0 < m.2.2.2 then m.2.2.2 else 20000000
  | none =>
      match t.caseLevel with
      | some cl => crimeLevelDegree cl * 20000000
      | none => 20000000

/-- `TipDetectiveReviewView.post` (investigations/views.py lines 1000-1079)
after the permission / assigned-detective gates (those 403 paths change no
state): only a forwarded tip may be reviewed; reject requires a non-blank
message; approval sets `approved` and creates the reward when none exists.
`freshCode` stands for the generated uuid hex. -/
def tipDetectiveReview (t : TipRec) (decision : Decision) (message : String)
    (freshCode : String) : TipRec × Option TipErr :=
  if t.status ≠ .forwardedToDetective then (t, some .invalidState)
  else
    let msg := pyStrip message
    if decision = .reject ∧ msg = "" then (t, some .validationError)
    else
      match decision with
      | .reject =>
          ({ t with status := .detectiveRejected, detectiveMessage := msg }, none)
      | .approve =>
          let t1 := { t with status := TipStatus.approved, detectiveMessage := msg }
          if t1.reward.isNone then
            ({ t1 with reward := some ⟨freshCode, tipRewardAmount t⟩ }, none)
          else (t1, none)

/-- Commit sequence of the detective-approve path: `tip.save(...)` commits the
status write, then `Reward.objects.create` commits the reward insert — there is
no enclosing transaction around the two (investigations/views.py lines
1046-1077), unlike complaint officer-review. -/
def tipApproveCommits (t : TipRec) (message freshCode : String) : List TipRec :=
  if t.status ≠ .forwardedToDetective then []
  else
    let t1 := { t with status := TipStatus.approved, detectiveMessage := pyStrip message }
    if t1.reward.isNone then
      [t1, { t1 with reward := some ⟨freshCode, tipRewardAmount t⟩ }]
    else [t1]

/-- Durable state if execution stops after the first `k` commits of a
detective approval. -/
def tipStateAfter (t : TipRec) (message freshCode : String) (k : Nat) : TipRec :=
  (((tipApproveCommits t message freshCode).take k).getLast?).getD t

/-- A reward joined with its tip's status and the submitting user's national
id, as filtered by `RewardLookupView.post`. -/
structure RewardRow where
  rewardCode : String
  rewardAmount : Nat
  tipStatus : TipStatus
  tipUserNationalId : String
deriving DecidableEq, Repr

/-- Outcome of a reward lookup request. -/
inductive LookupResult
| found (r : RewardRow)
| notFound
| forbidden
deriving DecidableEq, Repr

/-- The `get_object_or_404` filter of the reward lookup: reward code, tip
submitter's national id, and tip status approved must all match. -/
def rewardMatches (nationalId rewardCode : String) (r : RewardRow) : Bool :=
  r.rewardCode = rewardCode ∧ r.tipUserNationalId = nationalId ∧
    r.tipStatus = TipStatus.approved

/-- `RewardLookupView.post` (investigations/views.py lines 1092-1123): a 403
without the `reward_lookup` capability; otherwise `get_object_or_404` on
reward_code + tip user national id + tip status approved (`reward_code` is
unique, investigations/models.py line 373, so at most one row carries it). -/
def rewardLookup (hasPerm : Bool) (db : List RewardRow)
    (nationalId rewardCode : String) : LookupResult :=
  if ¬ hasPerm then .forbidden
  else
    match db.find? (rewardMatches nationalId rewardCode) with
    | some r => .found r
    | none => .notFound

/-! ## Most-wanted aggregation (investigations/views.py `MostWantedView.get`) -/

/-- `CaseSuspectStatus` choices (investigations/models.py). -/
inductive SuspectStatus
| proposed
| approved
| rejected
deriving DecidableEq, Repr

/-- A `CaseSuspect` row joined with its case and interrogation, as read by the
most-wanted scan.  `daysSinceProposal` is the whole-day difference
`(now.date() - proposed_at.date()).days`, a natural number since proposal
precedes the read. -/
structure MWSuspect where
  id : Nat
  firstName : String
  lastName : String
  nationalId : String
  phone : String
  photo : Option String
  status : SuspectStatus
  interrogation : Option Interr
  caseLevel : CrimeLevel
  caseStatus : CaseStatus
  daysSinceProposal : Nat
deriving DecidableEq, Repr

/-- `_suspect_identity_key` (investigations/views.py lines 762-769): the
national id when non-empty (Python truthiness), else lower-cased stripped
names plus the stripped phone. -/
def suspectIdentityKey (s : MWSuspect) : String :=
  if s.nationalId ≠ "" then "nid:" ++ s.nationalId
  else "np:" ++ pyLower (pyStrip s.firstName) ++ "|" ++ pyLower (pyStrip s.lastName)
    ++ "|" ++ pyStrip s.phone

/-- The filter of the most-wanted scan (lines 800-817, queryset plus the two
`continue` guards): approved suspects whose interrogation exists with
`captain_final_decision = True`, and for critical-crime cases
`chief_decision = True` as well. -/
def mwEligible (s : MWSuspect) : Bool :=
  match s.interrogation with
  | none => false
  | some itg =>
      decide (s.status = SuspectStatus.approved) &&
      decide (itg.captainFinalDecision = some true) &&
      !(decide (s.caseLevel = CrimeLevel.critical) && !(decide (itg.chiefDecision = some true)))

/-- Days-wanted contribution (lines 826-829): 0 for a closed case, else
`(now.date() - proposed_at.date()).days or 1`, i.e. 1 when the whole-day
difference is 0. -/
def mwDays (s : MWSuspect) : Nat :=
  if s.caseStatus ≠ CaseStatus.closed then
    if s.daysSinceProposal = 0 then 1 else s.daysSinceProposal
  else 0

/-- A most-wanted group aggregate (lines 831-845). -/
structure MWGroup where
  rep : MWSuspect
  maxDaysWanted : Nat
  maxCrimeDegree : Nat
deriving DecidableEq, Repr

/-- Group update for an existing key (lines 838-845): prefer a representative
with a photo; running maxima of days and degree. -/
def mwUpdate (g : MWGroup) (s : MWSuspect) : MWGroup :=
  { rep := if g.rep.photo = none ∧ s.photo ≠ none then s else g.rep
    maxDaysWanted := max g.maxDaysWanted (mwDays s)
    maxCrimeDegree := max g.maxCrimeDegree (crimeLevelDegree s.caseLevel) }

/-- Insert/update of the insertion-ordered `groups` dict (lines 831-845). -/
def mwInsert (key : String) (s : MWSuspect) :
    List (String × MWGroup) → List (String × MWGroup)
| [] => [(key, ⟨s, mwDays s, crimeLevelDegree s.caseLevel⟩)]
| (k, g) :: rest =>
    if k = key then (k, mwUpdate g s) :: rest
    else (k, g) :: mwInsert key s rest

/-- The grouping loop of `MostWantedView.get` (lines 808-845). -/
def mwGroups (suspects : List MWSuspect) : List (String × MWGroup) :=
  suspects.foldl (fun acc s =>
    if mwEligible s then mwInsert (suspectIdentityKey s) s acc else acc) []

/-- One response item (lines 858-871). -/
structure MWItem where
  suspectId : Nat
  firstName : String
  lastName : String
  nationalId : String
  phone : String
  photo : Option String
  maxDaysWanted : Nat
  maxCrimeDegree : Nat
  ranking : Nat
  rewardAmount : Nat
deriving DecidableEq, Repr

/-- Build the response items (lines 848-871): groups in insertion order,
dropping `ranking ≤ 0` (over ℕ: ranking = 0). -/
def mwItems (suspects : List MWSuspect) : List MWItem :=
  (mwGroups suspects).filterMap (fun kg =>
    let g := kg.2
    let ranking := g.maxDaysWanted * g.maxCrimeDegree
    if ranking = 0 then none
    else some ⟨g.rep.id, g.rep.firstName, g.rep.lastName, g.rep.nationalId, g.rep.phone,
      g.rep.photo, g.maxDaysWanted, g.maxCrimeDegree, ranking, ranking * 20000000⟩)

/-- The parsed `limit` query parameter: absent or unparsable means 10
(lines 794-798). -/
def mwLimit (limitParam : Option Int) : Int :=
  match limitParam with
  | some l => l
  | none => 10

/-- `MostWantedView.get` (lines 793-877): build the items, stable-sort
descending by ranking, truncate to `max(limit, 1)`. -/
def mostWanted (suspects : List MWSuspect) (limitParam : Option Int) : List MWItem :=
  (((mwItems suspects).mergeSort (fun a b => decide (b.ranking ≤ a.ranking))).take
    (max (mwLimit limitParam) 1).toNat)

/-- Claim-side wording: a suspect contributes `max(1, days since proposal)`
days when its case is not closed, and 0 when it is. -/
def specDaysContribution (s : MWSuspect) : Nat :=
  if s.caseStatus = CaseStatus.closed then 0 else max 1 s.daysSinceProposal

/-- Claim-side wording: the identity group of key `k` among eligible suspects. -/
def specGroup (suspects : List MWSuspect) (k : String) : List MWSuspect :=
  suspects.filter (fun s => mwEligible s && decide (suspectIdentityKey s = k))

/-- Claim-side wording: `max_days_wanted` of the group keyed `k`. -/
def specMaxDays (suspects : List MWSuspect) (k : String) : Nat :=
  ((specGroup suspects k).map specDaysContribution).foldr max 0

/-- Claim-side wording: `max_crime_degree` of the group keyed `k`. -/
def specMaxDegree (suspects : List MWSuspect) (k : String) : Nat :=
  ((specGroup suspects k).map (fun s => crimeLevelDegree s.caseLevel)).foldr max 0

/-- Loop invariant of the grouping scan: the accumulated dict has distinct
keys, every entry holds the claim-side maxima over the processed prefix, and a
key is present exactly when the prefix has an eligible suspect with it. -/
def MWInv (P : List MWSuspect) (acc : List (String × MWGroup)) : Prop :=
  (acc.map Prod.fst).Nodup ∧
  (∀ p ∈ acc, p.2.maxDaysWanted = specMaxDays P p.1 ∧
    p.2.maxCrimeDegree = specMaxDegree P p.1) ∧
  (∀ k, k ∈ acc.map Prod.fst ↔ ∃ s ∈ P, mwEligible s = true ∧ suspectIdentityKey s = k)

/-! ## C1 / C4 : trial verdict theorems -/

/-- C1: once a Trial verdict has been written for a (case, suspect) pair, a second
verdict submission never succeeds and leaves the stored verdict, punishment_title
and punishment_description unchanged; when the approval gates pass and the payload
is valid (the state in which the first write was possible), the error is
`trial_verdict_already_submitted`. -/
theorem trial_verdict_single_shot (st : TrialState) (p : VerdictPayload) (t : TrialRec)
    (ht : st.trial = some t) (hv : t.verdict.isSome = true) :
    (trialVerdictPost st p).state = st ∧
    (¬ ∃ r, (trialVerdictPost st p).response = Except.ok r) ∧
    (∀ itg q, st.interrogation = some itg →
      itg.captainFinalDecision = some true →
      (st.crimeLevel = CrimeLevel.critical → itg.chiefDecision = some true) →
      validateVerdictPayload p = Except.ok q →
      (trialVerdictPost st p).response = Except.error TrialErr.trialVerdictAlreadySubmitted) := by
  obtain ⟨cl, itgo, tro⟩ := st
  simp only at ht
  subst ht
  cases itgo with
  | none =>
      refine ⟨rfl, ?_, ?_⟩
      · rintro ⟨r, hr⟩
        simp [trialVerdictPost] at hr
      · intro itg q hitg
        cases hitg
  | some itg =>
      by_cases hc : itg.captainFinalDecision = some true
      · by_cases hcrit : cl = CrimeLevel.critical ∧ itg.chiefDecision ≠ some true
        · refine ⟨?_, ?_, ?_⟩
          · simp [trialVerdictPost, hc, hcrit]
          · rintro ⟨r, hr⟩
            simp [trialVerdictPost, hc, hcrit] at hr
          · intro itg' q hitg hcap hchief hq
            cases hitg
            exact absurd (hchief hcrit.1) hcrit.2
        · cases hq : validateVerdictPayload p with
          | error e =>
              refine ⟨?_, ?_, ?_⟩
              · simp [trialVerdictPost, hc, hcrit, hq]
              · rintro ⟨r, hr⟩
                simp [trialVerdictPost, hc, hcrit, hq] at hr
              · intro itg' q hitg hcap hchief hq'
                simp at hq'
          | ok q =>
              refine ⟨?_, ?_, ?_⟩
              · simp [trialVerdictPost, hc, hcrit, hq, trialSaveVerdict, hv]
              · rintro ⟨r, hr⟩
                simp [trialVerdictPost, hc, hcrit, hq, trialSaveVerdict, hv] at hr
              · intro itg' q' hitg hcap hchief hq'
                simp [trialVerdictPost, hc, hcrit, hq, trialSaveVerdict, hv]
      · refine ⟨?_, ?_, ?_⟩
        · simp [trialVerdictPost, hc]
        · rintro ⟨r, hr⟩
          simp [trialVerdictPost, hc] at hr
        · intro itg' q hitg hcap hchief hq
          cases hitg
          exact absurd hcap hc

/-- Witness for C1 at a concrete state: a level-1 case with captain approval and a
guilty verdict already stored; resubmitting an innocent verdict yields
`trial_verdict_already_submitted`. -/
theorem trial_verdict_single_shot_witness :
    (⟨CrimeLevel.level1, some ⟨some true, none⟩,
        some ⟨some Verdict.guilty, "Jail", "Prison"⟩⟩ : TrialState).trial
      = some ⟨some Verdict.guilty, "Jail", "Prison"⟩ ∧
    (trialVerdictPost
        ⟨CrimeLevel.level1, some ⟨some true, none⟩,
          some ⟨some Verdict.guilty, "Jail", "Prison"⟩⟩
        ⟨Verdict.innocent, "", ""⟩).response
      = Except.error TrialErr.trialVerdictAlreadySubmitted :=
  ⟨rfl,
    (trial_verdict_single_shot
        ⟨CrimeLevel.level1, some ⟨some true, none⟩,
          some ⟨some Verdict.guilty, "Jail", "Prison"⟩⟩
        ⟨Verdict.innocent, "", ""⟩
        ⟨some Verdict.guilty, "Jail", "Prison"⟩ rfl rfl).2.2
      ⟨some true, none⟩ ⟨Verdict.innocent, "", ""⟩ rfl rfl
      (fun h => absurd h (by decide)) rfl⟩

/-- C4 counterexample: on a critical case whose interrogation has
`captain_final_decision = false` and no chief decision, a verdict submission fails
with `captain_approval_required`, not `chief_approval_required` — so "fails with
ChiefApprovalRequired ... regardless of captain approval" is false on the code. -/
theorem trial_chief_gate_counterexample :
    (trialVerdictPost ⟨CrimeLevel.critical, some ⟨some false, none⟩, none⟩
        ⟨Verdict.innocent, "", ""⟩).response
      = Except.error TrialErr.captainApprovalRequired ∧
    (trialVerdictPost ⟨CrimeLevel.critical, some ⟨some false, none⟩, none⟩
        ⟨Verdict.innocent, "", ""⟩).response
      ≠ Except.error TrialErr.chiefApprovalRequired := by
  decide

/-- C4 (amended): with an interrogation present, a verdict submission with
`captain_final_decision ≠ true` fails with `captain_approval_required` (whatever
the crime level and chief decision); on a critical case with captain approval,
it fails with `chief_approval_required` whenever `chief_decision ≠ true`; on a
non-critical case, captain approval alone suffices: a valid payload on a fresh
(case, suspect) pair is accepted and the verdict is written. -/
theorem trial_verdict_gating (st : TrialState) (p : VerdictPayload) (itg : Interr)
    (hi : st.interrogation = some itg) :
    (itg.captainFinalDecision ≠ some true →
      (trialVerdictPost st p).response = Except.error TrialErr.captainApprovalRequired ∧
      (trialVerdictPost st p).state = st) ∧
    (st.crimeLevel = CrimeLevel.critical → itg.captainFinalDecision = some true →
      itg.chiefDecision ≠ some true →
      (trialVerdictPost st p).response = Except.error TrialErr.chiefApprovalRequired ∧
      (trialVerdictPost st p).state = st) ∧
    (st.crimeLevel ≠ CrimeLevel.critical → itg.captainFinalDecision = some true →
      st.trial = none →
      ∀ q, validateVerdictPayload p = Except.ok q →
      trialVerdictPost st p =
        ⟨{ st with trial := some ⟨some q.verdict, q.punishmentTitle, q.punishmentDescription⟩ },
          Except.ok ⟨some q.verdict, q.punishmentTitle, q.punishmentDescription⟩⟩) := by
  obtain ⟨cl, itgo, tro⟩ := st
  simp only at hi
  subst hi
  refine ⟨?_, ?_, ?_⟩
  · intro hc
    constructor <;> simp [trialVerdictPost, hc]
  · intro hcrit hcap hchief
    simp only at hcrit
    subst hcrit
    constructor <;> simp [trialVerdictPost, hcap, hchief]
  · intro hcrit hcap htr q hq
    simp only at htr hcrit
    subst htr
    simp [trialVerdictPost, hcap, hcrit, hq, trialSaveVerdict]

/-- Witness for C4 (amended) at concrete states: captain-missing failure on a
critical case, and acceptance of a guilty verdict on a level-2 case with captain
approval only. -/
theorem trial_verdict_gating_witness :
    (⟨CrimeLevel.level2, some ⟨some true, none⟩, none⟩ : TrialState).interrogation
      = some ⟨some true, none⟩ ∧
    trialVerdictPost ⟨CrimeLevel.level2, some ⟨some true, none⟩, none⟩
        ⟨Verdict.guilty, "Jail", "Five years"⟩
      = ⟨⟨CrimeLevel.level2, some ⟨some true, none⟩,
            some ⟨some Verdict.guilty, "Jail", "Five years"⟩⟩,
          Except.ok ⟨some Verdict.guilty, "Jail", "Five years"⟩⟩ :=
  ⟨rfl,
    (trial_verdict_gating ⟨CrimeLevel.level2, some ⟨some true, none⟩, none⟩
        ⟨Verdict.guilty, "Jail", "Five years"⟩ ⟨some true, none⟩ rfl).2.2
      (by decide) rfl rfl ⟨Verdict.guilty, "Jail", "Five years"⟩ (by decide)⟩

/-! ## C5 : complaint invalid-attempts invariant -/

/-- Each complaint request preserves `status = invalid ↔ invalid_attempts ≥ 3`. -/
theorem complaintInv_step (w : ComplaintWorld) (op : CompOp)
    (h : w.complaint.currentStatus = ComplaintStatus.invalid ↔ 3 ≤ w.complaint.invalidAttempts) :
    ((applyCompOp w op).1).complaint.currentStatus = ComplaintStatus.invalid ↔
      3 ≤ ((applyCompOp w op).1).complaint.invalidAttempts := by
  cases op with
  | cadet d m a r =>
      by_cases h1 : w.complaint.currentStatus ≠ .submitted ∧ w.complaint.currentStatus ≠ .officerRejected
      · simpa [applyCompOp, cadetReview, h1] using h
      · have hs : w.complaint.currentStatus = .submitted ∨ w.complaint.currentStatus = .officerRejected := by
          by_contra hc
          push_neg at hc
          exact h1 ⟨hc.1, hc.2⟩
      
        have hninv : w.complaint.currentStatus ≠ ComplaintStatus.invalid := by
          rcases hs with h' | h' <;> simp [h']
        have hlt : ¬ 3 ≤ w.complaint.invalidAttempts := fun hc => hninv (h.mpr hc)
        by_cases h3 : d = Decision.reject ∧ pyStrip m = ""
        · simpa [applyCompOp, cadetReview, h1, hninv, h3] using h
        · cases d with
          | approve => simp [applyCompOp, cadetReview, h1, hninv, hlt]
          | reject =>
              have hm : pyStrip m ≠ "" := fun he => h3 ⟨rfl, he⟩
              simp [applyCompOp, cadetReview, h1, hninv, hm, hlt]
  | officer d m =>
      by_cases h1 : w.complaint.currentStatus ≠ .cadetApproved
      · simpa [applyCompOp, officerReview, h1] using h
      · have hninv : w.complaint.currentStatus ≠ ComplaintStatus.invalid := by
          rw [not_not] at h1
          simp [h1]
        have hlt : ¬ 3 ≤ w.complaint.invalidAttempts := fun hc => hninv (h.mpr hc)
        by_cases h3 : d = Decision.reject ∧ pyStrip m = ""
        · simpa [applyCompOp, officerReview, h1, hninv, h3] using h
        · cases d with
          | reject =>
              have hm : pyStrip m ≠ "" := fun he => h3 ⟨rfl, he⟩
              simp [applyCompOp, officerReview, h1, hninv, hm, hlt]
          | approve =>
              cases hcid : w.complaint.caseId <;>
                simp [applyCompOp, officerReview, h1, hninv, h3, hlt, hcid]
  | resubmit cl =>
      by_cases h1 : w.complaint.currentStatus ≠ .cadetRejected
      · simpa [applyCompOp, complaintResubmit, h1] using h
      · by_cases h2 : w.complaint.currentStatus = ComplaintStatus.invalid ∨ 3 ≤ w.complaint.invalidAttempts
        · simpa [applyCompOp, complaintResubmit, h1, h2] using h
        · have hlt : w.complaint.invalidAttempts < 3 := by
            rcases Nat.lt_or_ge w.complaint.invalidAttempts 3 with h' | h'
            · exact h'
            · exact absurd (Or.inr h') h2
          by_cases h3 : 3 ≤ w.complaint.invalidAttempts + 1
          · cases cl <;> simp [applyCompOp, complaintResubmit, h1, h2, h3]
          · cases cl <;> simp [applyCompOp, complaintResubmit, h1, h2, h3]

/-- `invalid_attempts` never decreases under any single complaint request. -/
theorem complaintAttempts_mono (w : ComplaintWorld) (op : CompOp) :
    w.complaint.invalidAttempts ≤ ((applyCompOp w op).1).complaint.invalidAttempts := by
  cases op with
  | cadet d m a r =>
      simp only [applyCompOp, cadetReview]
      repeat' split
      all_goals simp
  | officer d m =>
      simp only [applyCompOp, officerReview]
      repeat' split
      all_goals simp
  | resubmit cl =>
      simp only [applyCompOp, complaintResubmit]
      repeat' split
      all_goals simp

/-- `invalid_attempts` never decreases along any request sequence. -/
theorem complaintAttempts_mono_run (w : ComplaintWorld) (ops : List CompOp) :
    w.complaint.invalidAttempts ≤ (runCompOps w ops).complaint.invalidAttempts := by
  induction ops generalizing w with
  | nil => exact Nat.le_refl _
  | cons op ops ih =>
      exact Nat.le_trans (complaintAttempts_mono w op) (ih (applyCompOp w op).1)

/-- The invariant `status = invalid ↔ attempts ≥ 3` holds after any run from a
state satisfying it. -/
theorem complaintInv_run (w : ComplaintWorld) (ops : List CompOp)
    (h : w.complaint.currentStatus = ComplaintStatus.invalid ↔ 3 ≤ w.complaint.invalidAttempts) :
    (runCompOps w ops).complaint.currentStatus = ComplaintStatus.invalid ↔
      3 ≤ (runCompOps w ops).complaint.invalidAttempts := by
  induction ops generalizing w with
  | nil => exact h
  | cons op ops ih => exact ih (applyCompOp w op).1 (complaintInv_step w op h)

/-- C5: over any request sequence starting from complaint creation,
`status = invalid ↔ invalid_attempts ≥ 3`; `invalid_attempts` never decreases at
any step; from `cadet_rejected` with two prior increments, the third
resubmission succeeds and forces `invalid`; and `invalid` is terminal: every
further request errors and leaves the state unchanged. -/
theorem complaint_invalid_invariant (creator : Nat) (cl : CrimeLevel)
    (additional existingUsers : List Nat) (ops : List CompOp)
    (wb wc wd : ComplaintWorld) (opb opd : CompOp) (cl' : Option CrimeLevel) :
    ((runCompOps (complaintCreate creator cl additional existingUsers) ops).complaint.currentStatus
        = ComplaintStatus.invalid ↔
      3 ≤ (runCompOps (complaintCreate creator cl additional existingUsers) ops).complaint.invalidAttempts) ∧
    (wb.complaint.invalidAttempts ≤ ((applyCompOp wb opb).1).complaint.invalidAttempts) ∧
    (wc.complaint.currentStatus = ComplaintStatus.cadetRejected →
      wc.complaint.invalidAttempts = 2 →
      (complaintResubmit wc cl').1.complaint.currentStatus = ComplaintStatus.invalid ∧
        (complaintResubmit wc cl').2 = none) ∧
    (wd.complaint.currentStatus = ComplaintStatus.invalid →
      (applyCompOp wd opd).1 = wd ∧ ((applyCompOp wd opd).2).isSome = true) := by
  refine ⟨?_, complaintAttempts_mono wb opb, ?_, ?_⟩
  · exact complaintInv_run _ ops (by simp [complaintCreate])
  · intro hs ha
    cases cl' <;> simp [complaintResubmit, hs, ha]
  · intro hs
    cases opd with
    | cadet d m a r => constructor <;> simp [applyCompOp, cadetReview, hs]
    | officer d m => constructor <;> simp [applyCompOp, officerReview, hs]
    | resubmit c => constructor <;> simp [applyCompOp, complaintResubmit, hs]

/-- Witness for C5 at concrete inputs: a third resubmission from attempts = 2
yields `invalid`, and a cadet review of an invalid complaint errors without
changing it. -/
theorem complaint_invalid_invariant_witness :
    (⟨⟨ComplaintStatus.cadetRejected, 2, "r", "", CrimeLevel.level1, none⟩, [], [], [], 0⟩ :
        ComplaintWorld).complaint.currentStatus = ComplaintStatus.cadetRejected ∧
    (⟨⟨ComplaintStatus.invalid, 3, "", "", CrimeLevel.level1, none⟩, [], [], [], 0⟩ :
        ComplaintWorld).complaint.currentStatus = ComplaintStatus.invalid ∧
    (complaintResubmit
        ⟨⟨ComplaintStatus.cadetRejected, 2, "r", "", CrimeLevel.level1, none⟩, [], [], [], 0⟩
        none).1.complaint.currentStatus = ComplaintStatus.invalid ∧
    (applyCompOp ⟨⟨ComplaintStatus.invalid, 3, "", "", CrimeLevel.level1, none⟩, [], [], [], 0⟩
        (CompOp.cadet Decision.approve "" [] [])).1
      = ⟨⟨ComplaintStatus.invalid, 3, "", "", CrimeLevel.level1, none⟩, [], [], [], 0⟩ := by
  have h := complaint_invalid_invariant 1 CrimeLevel.level1 [] [1] []
    ⟨⟨ComplaintStatus.submitted, 0, "", "", CrimeLevel.level1, none⟩, [], [], [], 0⟩
    ⟨⟨ComplaintStatus.cadetRejected, 2, "r", "", CrimeLevel.level1, none⟩, [], [], [], 0⟩
    ⟨⟨ComplaintStatus.invalid, 3, "", "", CrimeLevel.level1, none⟩, [], [], [], 0⟩
    (CompOp.cadet Decision.approve "" [] []) (CompOp.cadet Decision.approve "" [] []) none
  exact ⟨rfl, rfl, (h.2.2.1 rfl rfl).1, (h.2.2.2 rfl).1⟩

/-! ## C7 : idempotent case linkage -/

/-- Each complaint request preserves: the case link is set iff status is
`officer_approved`, and exactly that many cases have been created. -/
theorem complaintCase_step (w : ComplaintWorld) (op : CompOp)
    (h1 : w.complaint.currentStatus = ComplaintStatus.officerApproved ↔
      (w.complaint.caseId).isSome = true)
    (h2 : w.cases.length = if (w.complaint.caseId).isSome then 1 else 0) :
    (((applyCompOp w op).1).complaint.currentStatus = ComplaintStatus.officerApproved ↔
      (((applyCompOp w op).1).complaint.caseId).isSome = true) ∧
    ((applyCompOp w op).1).cases.length
      = if (((applyCompOp w op).1).complaint.caseId).isSome then 1 else 0 := by
  obtain ⟨⟨st, ia, cm, om, cl0, cid⟩, comps, cs, parts, ncid⟩ := w
  cases op with
  | cadet d m a r =>
      cases st <;> cases cid <;> cases d <;>
        try simp_all [applyCompOp, cadetReview]
      all_goals (split <;> simp_all)
  | officer d m =>
      cases st <;> cases cid <;> cases d <;>
        try simp_all [applyCompOp, officerReview]
      all_goals (split <;> simp_all)
  | resubmit cl =>
      cases st <;> cases cid <;> cases cl <;>
        try simp_all [applyCompOp, complaintResubmit]
      all_goals (split <;> simp_all)
      all_goals (split <;> simp_all)

/-- A case link, once set, is never changed by any complaint request. -/
theorem complaintCase_stable (w : ComplaintWorld) (op : CompOp) (i : Nat)
    (h : w.complaint.caseId = some i) :
    ((applyCompOp w op).1).complaint.caseId = some i := by
  obtain ⟨⟨st, ia, cm, om, cl0, cid⟩, comps, cs, parts, ncid⟩ := w
  simp only at h
  subst h
  cases op with
  | cadet d m a r =>
      cases st <;> cases d <;>
        try simp_all [applyCompOp, cadetReview]
      all_goals (split <;> simp_all)
  | officer d m =>
      cases st <;> cases d <;>
        try simp_all [applyCompOp, officerReview]
      all_goals (split <;> simp_all)
  | resubmit cl =>
      cases st <;> cases cl <;>
        try simp_all [applyCompOp, complaintResubmit]
      all_goals (split <;> simp_all)
      all_goals (split <;> simp_all)

/-- The case-linkage invariant holds after any run from a state satisfying it. -/
theorem complaintCase_run (ops : List CompOp) (w : ComplaintWorld)
    (h1 : w.complaint.currentStatus = ComplaintStatus.officerApproved ↔
      (w.complaint.caseId).isSome = true)
    (h2 : w.cases.length = if (w.complaint.caseId).isSome then 1 else 0) :
    ((runCompOps w ops).complaint.currentStatus = ComplaintStatus.officerApproved ↔
      ((runCompOps w ops).complaint.caseId).isSome = true) ∧
    (runCompOps w ops).cases.length
      = if ((runCompOps w ops).complaint.caseId).isSome then 1 else 0 := by
  induction ops generalizing w with
  | nil => exact ⟨h1, h2⟩
  | cons op ops ih =>
      have h := complaintCase_step w op h1 h2
      exact ih (applyCompOp w op).1 h.1 h.2

/-- C7 counterexample: after cadet approval and a successful officer approval,
a second officer approval of the same complaint does not succeed and reuse the
case reference — it fails with `invalid_state` (the complaint is no longer
`cadet_approved`); the case set still has exactly one element. -/
theorem officer_double_approval_counterexample :
    (officerReview
        (runCompOps (complaintCreate 1 CrimeLevel.level1 [] [1])
          [CompOp.cadet Decision.approve "" [] [], CompOp.officer Decision.approve ""])
        Decision.approve "").2 = some CompErr.invalidState ∧
    (officerReview
        (runCompOps (complaintCreate 1 CrimeLevel.level1 [] [1])
          [CompOp.cadet Decision.approve "" [] [], CompOp.officer Decision.approve ""])
        Decision.approve "").1.cases.length = 1 := by
  decide

/-- C7 (amended): officer-approving the same complaint twice never creates two
Cases — the second officer review fails with `invalid_state` and leaves the
state unchanged (rather than succeeding and reusing the case reference); along
any run from creation at most one Case is ever created; and a case link, once
set, is never changed. -/
theorem officer_double_approval (w wa : ComplaintWorld) (d : Decision) (m : String)
    (creator : Nat) (cl : CrimeLevel) (additional existingUsers : List Nat)
    (ops : List CompOp) (op : CompOp) (i : Nat) :
    (w.complaint.currentStatus = ComplaintStatus.officerApproved →
      officerReview w d m = (w, some CompErr.invalidState)) ∧
    (runCompOps (complaintCreate creator cl additional existingUsers) ops).cases.length ≤ 1 ∧
    (wa.complaint.caseId = some i → ((applyCompOp wa op).1).complaint.caseId = some i) := by
  refine ⟨?_, ?_, complaintCase_stable wa op i⟩
  · intro h
    simp [officerReview, h]
  · have h := (complaintCase_run ops (complaintCreate creator cl additional existingUsers)
      (by simp [complaintCreate]) (by simp [complaintCreate])).2
    rw [h]
    split <;> simp

/-- Witness for C7 at concrete states: a second officer approval of an
officer-approved complaint errors, and an existing case link survives a
resubmission attempt. -/
theorem officer_double_approval_witness :
    (⟨⟨ComplaintStatus.officerApproved, 0, "", "", CrimeLevel.level1, some 0⟩, [], [⟨0, CrimeLevel.level1, CaseStatus.active⟩], [], 1⟩ :
        ComplaintWorld).complaint.currentStatus = ComplaintStatus.officerApproved ∧
    officerReview
        ⟨⟨ComplaintStatus.officerApproved, 0, "", "", CrimeLevel.level1, some 0⟩, [],
          [⟨0, CrimeLevel.level1, CaseStatus.active⟩], [], 1⟩
        Decision.approve ""
      = (⟨⟨ComplaintStatus.officerApproved, 0, "", "", CrimeLevel.level1, some 0⟩, [],
          [⟨0, CrimeLevel.level1, CaseStatus.active⟩], [], 1⟩, some CompErr.invalidState) := by
  have h := officer_double_approval
    ⟨⟨ComplaintStatus.officerApproved, 0, "", "", CrimeLevel.level1, some 0⟩, [],
      [⟨0, CrimeLevel.level1, CaseStatus.active⟩], [], 1⟩
    ⟨⟨ComplaintStatus.officerApproved, 0, "", "", CrimeLevel.level1, some 0⟩, [],
      [⟨0, CrimeLevel.level1, CaseStatus.active⟩], [], 1⟩
    Decision.approve "" 1 CrimeLevel.level1 [] [1] [] (CompOp.resubmit none) 0
  exact ⟨rfl, h.1 rfl⟩

/-! ## C10 : creator complainant entry -/

/-- C10: complaint creation writes an `approved` complainant entry for the
creator and `pending` entries for every other listed complainant; consequently,
approving the complaint (cadet, then officer, with no complainant-status edits)
creates the Case with the creator as a participant. -/
theorem complaint_creator_participant (creator : Nat) (cl : CrimeLevel)
    (additional existingUsers : List Nat) :
    (complaintCreate creator cl additional existingUsers).complainants.head? =
      some (creator, ComplainantStatus.approved) ∧
    (∀ e ∈ (complaintCreate creator cl additional existingUsers).complainants,
      e.1 = creator → e.2 = ComplainantStatus.approved) ∧
    (∀ e ∈ (complaintCreate creator cl additional existingUsers).complainants,
      e.1 ≠ creator → e.2 = ComplainantStatus.pending) ∧
    (officerReview (cadetReview (complaintCreate creator cl additional existingUsers)
        Decision.approve "" [] []).1 Decision.approve "").1.complaint.caseId = some 0 ∧
    (0, creator) ∈ (officerReview (cadetReview (complaintCreate creator cl additional existingUsers)
        Decision.approve "" [] []).1 Decision.approve "").1.participants := by
  have hw1 : (cadetReview (complaintCreate creator cl additional existingUsers)
        Decision.approve "" [] []).1
      = { complaint := ⟨ComplaintStatus.cadetApproved, 0, "", "", cl, none⟩
          complainants := (complaintCreate creator cl additional existingUsers).complainants
          cases := []
          participants := []
          nextCaseId := 0 } := by
    simp [cadetReview, complaintCreate, bulkComplainantUpdate]
  refine ⟨rfl, ?_, ?_, ?_, ?_⟩
  · intro e he heq
    simp only [complaintCreate] at he
    rcases List.mem_cons.mp he with h | h
    · rw [h]
    · rcases List.mem_map.mp h with ⟨uid, hu, hue⟩
      have hne : uid ≠ creator := by
        have := List.mem_filter.mp hu
        simp at this
        exact this.2.1
      rw [← hue] at heq
      exact absurd heq hne
  · intro e he hne
    simp only [complaintCreate] at he
    rcases List.mem_cons.mp he with h | h
    · rw [h] at hne
      exact absurd rfl hne
    · rcases List.mem_map.mp h with ⟨uid, hu, hue⟩
      rw [← hue]
  · rw [hw1]
    simp [officerReview]
  · rw [hw1]
    simp only [officerReview]
    simp only [complaintCreate]
    refine List.mem_append.mpr (Or.inr ?_)
    refine List.mem_map.mpr ⟨(creator, ComplainantStatus.approved), ?_, rfl⟩
    refine List.mem_filter.mpr ⟨List.mem_cons_self _ _, by simp⟩

/-- Witness for C10 at concrete inputs: creator 5 with additional complainant 7. -/
theorem complaint_creator_participant_witness :
    (complaintCreate 5 CrimeLevel.level2 [7] [5, 7]).complainants.head? =
      some (5, ComplainantStatus.approved) ∧
    (7, ComplainantStatus.pending) ∈ (complaintCreate 5 CrimeLevel.level2 [7] [5, 7]).complainants ∧
    (7, ComplainantStatus.pending).2 = ComplainantStatus.pending ∧
    (0, 5) ∈ (officerReview (cadetReview (complaintCreate 5 CrimeLevel.level2 [7] [5, 7])
        Decision.approve "" [] []).1 Decision.approve "").1.participants := by
  have h := complaint_creator_participant 5 CrimeLevel.level2 [7] [5, 7]
  exact ⟨h.1, by decide, h.2.2.1 (7, ComplainantStatus.pending) (by decide) (by decide),
    h.2.2.2.2⟩

/-! ## C8 : scene report approval -/

/-- One approve request preserves the scene-report activation invariant. -/
theorem sceneInv_step (st : SceneReportSt) (now : Nat)
    (h1 : st.formedWrites ≤ 1)
    (h2 : st.formedWrites = 1 ↔ st.status = SceneReportStatus.approved)
    (h3 : st.status = SceneReportStatus.approved →
      st.ownedCase.status = CaseStatus.active ∧ (st.ownedCase.formedAt).isSome = true) :
    ((sceneReportApprove st now).1).formedWrites ≤ 1 ∧
    (((sceneReportApprove st now).1).formedWrites = 1 ↔
      ((sceneReportApprove st now).1).status = SceneReportStatus.approved) ∧
    (((sceneReportApprove st now).1).status = SceneReportStatus.approved →
      ((sceneReportApprove st now).1).ownedCase.status = CaseStatus.active ∧
        (((sceneReportApprove st now).1).ownedCase.formedAt).isSome = true) := by
  by_cases h : st.status = SceneReportStatus.approved
  · exact ⟨by simpa [sceneReportApprove, h] using h1,
      by simpa [sceneReportApprove, h] using h2,
      by simpa [sceneReportApprove, h] using h3⟩
  · have hw : st.formedWrites = 0 := by
      rcases Nat.lt_or_ge st.formedWrites 1 with h' | h'
      · omega
      · exact absurd (h2.mp (by omega)) h
    simp [sceneReportApprove, h, hw]

/-- The activation invariant holds after any run of approve requests. -/
theorem sceneInv_run (st : SceneReportSt) (times : List Nat)
    (h1 : st.formedWrites ≤ 1)
    (h2 : st.formedWrites = 1 ↔ st.status = SceneReportStatus.approved)
    (h3 : st.status = SceneReportStatus.approved →
      st.ownedCase.status = CaseStatus.active ∧ (st.ownedCase.formedAt).isSome = true) :
    (runSceneApproves st times).formedWrites ≤ 1 ∧
    ((runSceneApproves st times).formedWrites = 1 ↔
      (runSceneApproves st times).status = SceneReportStatus.approved) ∧
    ((runSceneApproves st times).status = SceneReportStatus.approved →
      (runSceneApproves st times).ownedCase.status = CaseStatus.active ∧
        ((runSceneApproves st times).ownedCase.formedAt).isSome = true) := by
  induction times generalizing st with
  | nil => exact ⟨h1, h2, h3⟩
  | cons t ts ih =>
      have h := sceneInv_step st t h1 h2 h3
      exact ih (sceneReportApprove st t).1 h.1 h.2.1 h.2.2

/-- C8: approving an already-approved scene report always fails with
`already_approved` and changes nothing; the owned Case is activated with
`formed_at` stamped exactly once over the report's lifetime — once at creation
when auto-approved, else once at the first successful approve — for every
sequence of approve requests after either creation path. -/
theorem scene_report_approve_once (st : SceneReportSt) (now : Nat) (auto : Bool)
    (t0 : Nat) (times : List Nat) :
    (st.status = SceneReportStatus.approved →
      sceneReportApprove st now = (st, some SceneErr.alreadyApproved)) ∧
    (sceneReportCreate true t0 =
      ⟨SceneReportStatus.approved, ⟨CaseStatus.active, some t0⟩, 1⟩) ∧
    (sceneReportCreate false t0 =
      ⟨SceneReportStatus.pending, ⟨CaseStatus.draft, none⟩, 0⟩) ∧
    (runSceneApproves (sceneReportCreate auto t0) times).formedWrites ≤ 1 ∧
    ((runSceneApproves (sceneReportCreate auto t0) times).formedWrites = 1 ↔
      (runSceneApproves (sceneReportCreate auto t0) times).status = SceneReportStatus.approved) ∧
    ((runSceneApproves (sceneReportCreate auto t0) times).status = SceneReportStatus.approved →
      (runSceneApproves (sceneReportCreate auto t0) times).ownedCase.status = CaseStatus.active ∧
        ((runSceneApproves (sceneReportCreate auto t0) times).ownedCase.formedAt).isSome = true) := by
  have hrun := sceneInv_run (sceneReportCreate auto t0) times
    (by cases auto <;> simp [sceneReportCreate])
    (by cases auto <;> simp [sceneReportCreate])
    (by cases auto <;> simp [sceneReportCreate])
  refine ⟨?_, rfl, rfl, hrun.1, hrun.2.1, hrun.2.2⟩
  intro h
  simp [sceneReportApprove, h]

/-- Witness for C8: re-approving an approved report (formed once) errors. -/
theorem scene_report_approve_once_witness :
    (⟨SceneReportStatus.approved, ⟨CaseStatus.active, some 3⟩, 1⟩ : SceneReportSt).status
      = SceneReportStatus.approved ∧
    sceneReportApprove ⟨SceneReportStatus.approved, ⟨CaseStatus.active, some 3⟩, 1⟩ 9
      = (⟨SceneReportStatus.approved, ⟨CaseStatus.active, some 3⟩, 1⟩,
          some SceneErr.alreadyApproved) ∧
    (runSceneApproves (sceneReportCreate false 0) [4, 5, 6]).formedWrites = 1 := by
  have h := scene_report_approve_once
    ⟨SceneReportStatus.approved, ⟨CaseStatus.active, some 3⟩, 1⟩ 9 false 0 [4, 5, 6]
  exact ⟨rfl, h.1 rfl, ((h.2.2.2.2.1).mpr (by decide))⟩

/-! ## C2 : tip approval and reward creation -/

/-- C2: detective-approving a forwarded tip sets it `approved` and, when no
reward exists, creates exactly one reward whose amount is the suspect's
most-wanted reward when a suspect is referenced (falling back to the base
amount when that reward is 0), else crime degree × 20,000,000 when only a case
is referenced, else the flat base 20,000,000; when a reward already exists none
is created; and a repeat approval (the tip is no longer forwarded) errors and
changes nothing. -/
theorem tip_approve_reward (t : TipRec) (m code : String) (s : SuspectMetricInput)
    (cl : CrimeLevel) :
    (t.status = TipStatus.forwardedToDetective → t.reward = none →
      tipDetectiveReview t Decision.approve m code =
        ({ t with
            status := TipStatus.approved
            detectiveMessage := pyStrip m
            reward := some ⟨code, tipRewardAmount t⟩ }, none)) ∧
    (t.status = TipStatus.forwardedToDetective → ∀ r, t.reward = some r →
      tipDetectiveReview t Decision.approve m code =
        ({ t with status := TipStatus.approved, detectiveMessage := pyStrip m }, none)) ∧
    (t.status ≠ TipStatus.forwardedToDetective →
      tipDetectiveReview t Decision.approve m code = (t, some TipErr.invalidState)) ∧
    (t.suspect = some s → 0 < (computeMostWantedMetrics s).2.2.2 →
      tipRewardAmount t = (computeMostWantedMetrics s).2.2.2) ∧
    (t.suspect = some s → (computeMostWantedMetrics s).2.2.2 = 0 →
      tipRewardAmount t = 20000000) ∧
    (t.suspect = none → t.caseLevel = some cl →
      tipRewardAmount t = crimeLevelDegree cl * 20000000) ∧
    (t.suspect = none → t.caseLevel = none → tipRewardAmount t = 20000000) := by
  obtain ⟨st, sus, clv, rew, dm⟩ := t
  refine ⟨?_, ?_, ?_, ?_, ?_, ?_, ?_⟩
  · intro h1 h2
    simp only at h1 h2
    subst h1
    subst h2
    simp [tipDetectiveReview]
  · intro h1 r h2
    simp only at h1 h2
    subst h1
    subst h2
    simp [tipDetectiveReview]
  · intro h1
    simp only at h1
    simp [tipDetectiveReview, h1]
  · intro hs hpos
    simp only at hs
    subst hs
    simp [tipRewardAmount, hpos]
  · intro hs hz
    simp only at hs
    subst hs
    simp [tipRewardAmount, hz]
  · intro hs hc
    simp only at hs hc
    subst hs
    subst hc
    simp [tipRewardAmount]
  · intro hs hc
    simp only at hs hc
    subst hs
    subst hc
    simp [tipRewardAmount]

/-- Witness for C2: a forwarded tip on a critical-case suspect wanted 10 days
yields one reward of 10 × 4 × 20,000,000 = 800,000,000. -/
theorem tip_approve_reward_witness :
    (⟨TipStatus.forwardedToDetective, some ⟨false, CrimeLevel.critical, 10⟩, none, none, ""⟩ :
        TipRec).status = TipStatus.forwardedToDetective ∧
    tipDetectiveReview
        ⟨TipStatus.forwardedToDetective, some ⟨false, CrimeLevel.critical, 10⟩, none, none, ""⟩
        Decision.approve "ok" "abc"
      = (⟨TipStatus.approved, some ⟨false, CrimeLevel.critical, 10⟩, none,
          some ⟨"abc", 800000000⟩, "ok"⟩, none) := by
  have h := (tip_approve_reward
    ⟨TipStatus.forwardedToDetective, some ⟨false, CrimeLevel.critical, 10⟩, none, none, ""⟩
    "ok" "abc" ⟨false, CrimeLevel.critical, 10⟩ CrimeLevel.level1).1 rfl rfl
  refine ⟨rfl, ?_⟩
  rw [h]
  decide

/-! ## C3 : multi-write atomicity -/

/-- C3 counterexample: for a forwarded tip with no references and no reward, a
failure after the first commit of the detective approval (the tip save) but
before the second (the reward insert) leaves a state that is neither the
initial nor the final one: the tip is `approved` with no reward, while the
completed transition carries the reward — so "a failure mid-sequence leaves no
partial state" is false on the code for tip approval. -/
theorem tip_atomicity_counterexample :
    tipStateAfter ⟨TipStatus.forwardedToDetective, none, none, none, ""⟩ "" "c" 1
      ≠ ⟨TipStatus.forwardedToDetective, none, none, none, ""⟩ ∧
    tipStateAfter ⟨TipStatus.forwardedToDetective, none, none, none, ""⟩ "" "c" 1
      ≠ tipStateAfter ⟨TipStatus.forwardedToDetective, none, none, none, ""⟩ "" "c" 2 ∧
    (tipStateAfter ⟨TipStatus.forwardedToDetective, none, none, none, ""⟩ "" "c" 1).status
      = TipStatus.approved ∧
    (tipStateAfter ⟨TipStatus.forwardedToDetective, none, none, none, ""⟩ "" "c" 1).reward
      = none ∧
    (tipStateAfter ⟨TipStatus.forwardedToDetective, none, none, none, ""⟩ "" "c" 2).reward
      = some ⟨"c", 20000000⟩ := by
  decide

/-- C3 (amended): complaint officer-review is atomic — its handler body runs in
one transaction, so stopping after any number of commits leaves either the
initial or the final state (in particular, if case creation does not commit,
the complaint stays `cadet_approved`); detective tip-approval is not atomic —
the status save commits separately from the reward insert, so a failure between
the two leaves the tip `approved` with no reward, while the completed
transition records the reward. -/
theorem multi_write_atomicity (w : ComplaintWorld) (d : Decision) (m : String) (k : Nat)
    (t : TipRec) (tm tc : String) :
    (officerStateAfter w d m k = w ∨ officerStateAfter w d m k = (officerReview w d m).1) ∧
    (t.status = TipStatus.forwardedToDetective → t.reward = none →
      tipStateAfter t tm tc 1 =
        { t with status := TipStatus.approved, detectiveMessage := pyStrip tm } ∧
      (tipStateAfter t tm tc 2).reward = some ⟨tc, tipRewardAmount t⟩) := by
  constructor
  · unfold officerStateAfter officerReviewCommits
    rcases hr : officerReview w d m with ⟨w', e⟩
    cases e with
    | some err =>
        left
        cases k <;> simp
    | none =>
        cases k with
        | zero =>
            left
            simp
        | succ n =>
            right
            simp
  · intro h1 h2
    obtain ⟨st, sus, clv, rew, dm⟩ := t
    simp only at h1 h2
    subst h1
    subst h2
    constructor <;> simp [tipStateAfter, tipApproveCommits]

/-- Witness for C3 (amended) at concrete inputs. -/
theorem multi_write_atomicity_witness :
    (officerStateAfter
        ⟨⟨ComplaintStatus.cadetApproved, 0, "", "", CrimeLevel.level1, none⟩, [(1, ComplainantStatus.approved)], [], [], 0⟩
        Decision.approve "" 1
      = ⟨⟨ComplaintStatus.cadetApproved, 0, "", "", CrimeLevel.level1, none⟩, [(1, ComplainantStatus.approved)], [], [], 0⟩ ∨
    officerStateAfter
        ⟨⟨ComplaintStatus.cadetApproved, 0, "", "", CrimeLevel.level1, none⟩, [(1, ComplainantStatus.approved)], [], [], 0⟩
        Decision.approve "" 1
      = (officerReview
          ⟨⟨ComplaintStatus.cadetApproved, 0, "", "", CrimeLevel.level1, none⟩, [(1, ComplainantStatus.approved)], [], [], 0⟩
          Decision.approve "").1) ∧
    (tipStateAfter ⟨TipStatus.forwardedToDetective, none, some CrimeLevel.level2, none, ""⟩ "x" "z" 2).reward
      = some ⟨"z", 40000000⟩ := by
  have h := multi_write_atomicity
    ⟨⟨ComplaintStatus.cadetApproved, 0, "", "", CrimeLevel.level1, none⟩, [(1, ComplainantStatus.approved)], [], [], 0⟩
    Decision.approve "" 1
    ⟨TipStatus.forwardedToDetective, none, some CrimeLevel.level2, none, ""⟩ "x" "z"
  refine ⟨h.1, ?_⟩
  rw [(h.2 rfl rfl).2]
  decide

/-! ## C9 : reward lookup -/

/-- C9: with the lookup capability, the reward lookup returns a reward iff some
row matches all of: reward code, submitting user's national id, and tip status
`approved`; any returned row is such a matching row; whenever no row matches
all three (wrong code, wrong national id, or non-approved tip alike) the result
is the single `notFound` outcome, and the result is never a permission error. -/
theorem reward_lookup_iff (db : List RewardRow) (nid code : String) :
    ((∃ r, rewardLookup true db nid code = LookupResult.found r) ↔
      ∃ r ∈ db, r.rewardCode = code ∧ r.tipUserNationalId = nid ∧
        r.tipStatus = TipStatus.approved) ∧
    (∀ r, rewardLookup true db nid code = LookupResult.found r →
      r ∈ db ∧ r.rewardCode = code ∧ r.tipUserNationalId = nid ∧
        r.tipStatus = TipStatus.approved) ∧
    ((¬ ∃ r ∈ db, r.rewardCode = code ∧ r.tipUserNationalId = nid ∧
        r.tipStatus = TipStatus.approved) →
      rewardLookup true db nid code = LookupResult.notFound) ∧
    rewardLookup true db nid code ≠ LookupResult.forbidden := by
  cases hf : db.find? (rewardMatches nid code) with
  | none =>
      have hno : ∀ r ∈ db, ¬ (r.rewardCode = code ∧ r.tipUserNationalId = nid ∧
          r.tipStatus = TipStatus.approved) := by
        intro r hr
        have := List.find?_eq_none.mp hf r hr
        simpa [rewardMatches] using this
      refine ⟨?_, ?_, ?_, ?_⟩
      · constructor
        · rintro ⟨r, hr⟩
          simp [rewardLookup, hf] at hr
        · rintro ⟨r, hr, hp⟩
          exact absurd hp (hno r hr)
      · intro r hr
        simp [rewardLookup, hf] at hr
      · intro h
        simp [rewardLookup, hf]
      · simp [rewardLookup, hf]
  | some r0 =>
      have hmem : r0 ∈ db := List.mem_of_find?_eq_some hf
      have hp : r0.rewardCode = code ∧ r0.tipUserNationalId = nid ∧
          r0.tipStatus = TipStatus.approved := by
        have := List.find?_some hf
        simpa [rewardMatches] using this
      refine ⟨?_, ?_, ?_, ?_⟩
      · constructor
        · rintro ⟨r, hr⟩
          exact ⟨r0, hmem, hp⟩
        · intro h
          exact ⟨r0, by simp [rewardLookup, hf]⟩
      · intro r hr
        simp [rewardLookup, hf] at hr
        subst hr
        exact ⟨hmem, hp⟩
      · intro h
        exact absurd ⟨r0, hmem, hp⟩ h
      · simp [rewardLookup, hf]

/-- Witness for C9: one approved-tip reward row; the matching lookup finds it,
a wrong national id and a wrong code both give `notFound`. -/
theorem reward_lookup_iff_witness :
    rewardLookup true [⟨"abc", 5, TipStatus.approved, "123"⟩] "123" "abc"
      = LookupResult.found ⟨"abc", 5, TipStatus.approved, "123"⟩ ∧
    (⟨"abc", 5, TipStatus.approved, "123"⟩ : RewardRow) ∈
      ([⟨"abc", 5, TipStatus.approved, "123"⟩] : List RewardRow) ∧
    rewardLookup true [⟨"abc", 5, TipStatus.approved, "123"⟩] "999" "abc"
      = LookupResult.notFound ∧
    rewardLookup true [⟨"abc", 5, TipStatus.approved, "123"⟩] "123" "zzz"
      = LookupResult.notFound := by
  refine ⟨by decide, by decide, ?_, ?_⟩
  · exact (reward_lookup_iff [⟨"abc", 5, TipStatus.approved, "123"⟩] "999" "abc").2.2.1
      (by decide)
  · exact (reward_lookup_iff [⟨"abc", 5, TipStatus.approved, "123"⟩] "123" "zzz").2.2.1
      (by decide)

/-! ## C6 : most-wanted aggregation lemmas -/

/-- The code's `days or 1` equals the claim's `max(1, days)` contribution. -/
theorem mwDays_eq_spec (s : MWSuspect) : mwDays s = specDaysContribution s := by
  unfold mwDays specDaysContribution
  by_cases h : s.caseStatus = CaseStatus.closed
  · simp [h]
  · by_cases hd : s.daysSinceProposal = 0 <;> simp [h, hd] <;> omega

/-- Folding `max` from an initial value pulls the value out. -/
theorem foldrMax_init (l : List Nat) (b : Nat) :
    l.foldr max b = max (l.foldr max 0) b := by
  induction l with
  | nil => simp [Nat.max_comm]
  | cons a l ih => simp [ih, Nat.max_assoc]

/-- `specGroup` over a snoc. -/
theorem specGroup_append (P : List MWSuspect) (s : MWSuspect) (k : String) :
    specGroup (P ++ [s]) k =
      specGroup P k ++
        (if mwEligible s && decide (suspectIdentityKey s = k) then [s] else []) := by
  simp only [specGroup, List.filter_append]
  congr 1
  by_cases h : mwEligible s && decide (suspectIdentityKey s = k) <;> simp [h]

/-- `max_days_wanted` over a snoc: hit case. -/
theorem specMaxDays_append_hit (P : List MWSuspect) (s : MWSuspect) (k : String)
    (he : mwEligible s = true) (hk : suspectIdentityKey s = k) :
    specMaxDays (P ++ [s]) k = max (specMaxDays P k) (specDaysContribution s) := by
  unfold specMaxDays
  rw [specGroup_append]
  simp [he, hk]
  exact foldrMax_init _ _

/-- `max_days_wanted` over a snoc: miss case. -/
theorem specMaxDays_append_miss (P : List MWSuspect) (s : MWSuspect) (k : String)
    (h : ¬ (mwEligible s = true ∧ suspectIdentityKey s = k)) :
    specMaxDays (P ++ [s]) k = specMaxDays P k := by
  unfold specMaxDays
  rw [specGroup_append]
  have hc : (mwEligible s && decide (suspectIdentityKey s = k)) = false := by
    by_cases h1 : mwEligible s = true
    · by_cases h2 : suspectIdentityKey s = k
      · exact absurd ⟨h1, h2⟩ h
      · simp [h1, h2]
    · simp [h1]
  simp [hc]

/-- `max_crime_degree` over a snoc: hit case. -/
theorem specMaxDegree_append_hit (P : List MWSuspect) (s : MWSuspect) (k : String)
    (he : mwEligible s = true) (hk : suspectIdentityKey s = k) :
    specMaxDegree (P ++ [s]) k =
      max (specMaxDegree P k) (crimeLevelDegree s.caseLevel) := by
  unfold specMaxDegree
  rw [specGroup_append]
  simp [he, hk]
  exact foldrMax_init _ _

/-- `max_crime_degree` over a snoc: miss case. -/
theorem specMaxDegree_append_miss (P : List MWSuspect) (s : MWSuspect) (k : String)
    (h : ¬ (mwEligible s = true ∧ suspectIdentityKey s = k)) :
    specMaxDegree (P ++ [s]) k = specMaxDegree P k := by
  unfold specMaxDegree
  rw [specGroup_append]
  have hc : (mwEligible s && decide (suspectIdentityKey s = k)) = false := by
    by_cases h1 : mwEligible s = true
    · by_cases h2 : suspectIdentityKey s = k
      · exact absurd ⟨h1, h2⟩ h
      · simp [h1, h2]
    · simp [h1]
  simp [hc]

/-- Key membership after a dict insert. -/
theorem mwInsert_keys_mem (key : String) (s : MWSuspect) (acc : List (String × MWGroup))
    (k : String) :
    k ∈ (mwInsert key s acc).map Prod.fst ↔ k ∈ acc.map Prod.fst ∨ k = key := by
  induction acc with
  | nil => simp [mwInsert]
  | cons p rest ih =>
      obtain ⟨k', g⟩ := p
      by_cases h : k' = key
      · subst h
        simp [mwInsert]
        tauto
      · simp [mwInsert, h, ih]
        tauto

/-- Distinct keys stay distinct across a dict insert. -/
theorem mwInsert_keys_nodup (key : String) (s : MWSuspect) (acc : List (String × MWGroup))
    (h : (acc.map Prod.fst).Nodup) : ((mwInsert key s acc).map Prod.fst).Nodup := by
  induction acc with
  | nil => simp [mwInsert]
  | cons p rest ih =>
      obtain ⟨k', g⟩ := p
      simp only [List.map_cons, List.nodup_cons] at h
      by_cases hk : k' = key
      · subst hk
        simpa [mwInsert, List.nodup_cons] using h
      · have hrest := ih h.2
        simp only [mwInsert, if_neg hk, List.map_cons, List.nodup_cons]
        refine ⟨?_, hrest⟩
        rw [mwInsert_keys_mem]
        rintro (hmem | hmem)
        · exact h.1 hmem
        · exact hk hmem

/-- With distinct keys, every entry after a dict insert is an untouched old
entry with another key, the updated entry for `key`, or a fresh entry for a
previously absent `key`. -/
theorem mwInsert_entries (key : String) (s : MWSuspect) (acc : List (String × MWGroup))
    (hnd : (acc.map Prod.fst).Nodup) (p : String × MWGroup) (hp : p ∈ mwInsert key s acc) :
    (p.1 ≠ key ∧ p ∈ acc) ∨
    (p.1 = key ∧ ∃ g, (key, g) ∈ acc ∧ p.2 = mwUpdate g s) ∨
    (p.1 = key ∧ key ∉ acc.map Prod.fst ∧
      p.2 = ⟨s, mwDays s, crimeLevelDegree s.caseLevel⟩) := by
  induction acc with
  | nil =>
      simp [mwInsert] at hp
      subst hp
      right; right
      simp
  | cons q rest ih =>
      obtain ⟨k', g⟩ := q
      simp only [List.map_cons, List.nodup_cons] at hnd
      by_cases hk : k' = key
      · subst hk
        simp only [mwInsert, if_pos rfl] at hp
        rcases List.mem_cons.mp hp with h | h
        · right; left
          rw [h]
          exact ⟨rfl, g, List.mem_cons_self _ _, rfl⟩
        · left
          have hpk : p.1 ≠ k' := by
            intro hc
            exact hnd.1 (hc ▸ List.mem_map_of_mem Prod.fst h)
          exact ⟨hpk, List.mem_cons_of_mem _ h⟩
      · simp only [mwInsert, if_neg hk] at hp
        rcases List.mem_cons.mp hp with h | h
        · left
          rw [h]
          exact ⟨hk, List.mem_cons_self _ _⟩
        · rcases ih hnd.2 h with h' | h' | h'
          · exact Or.inl ⟨h'.1, List.mem_cons_of_mem _ h'.2⟩
          · exact Or.inr (Or.inl ⟨h'.1, h'.2.choose,
              List.mem_cons_of_mem _ h'.2.choose_spec.1, h'.2.choose_spec.2⟩)
          · refine Or.inr (Or.inr ⟨h'.1, ?_, h'.2.2⟩)
            simp only [List.map_cons, List.mem_cons]
            rintro (hc | hc)
            · exact hk hc.symm
            · exact h'.2.1 hc

/-- One scan step preserves the grouping invariant. -/
theorem mwInv_step (P : List MWSuspect) (acc : List (String × MWGroup)) (s : MWSuspect)
    (h : MWInv P acc) :
    MWInv (P ++ [s])
      (if mwEligible s then mwInsert (suspectIdentityKey s) s acc else acc) := by
  obtain ⟨hnd, hvals, hkeys⟩ := h
  by_cases he : mwEligible s
  · rw [if_pos he]
    refine ⟨mwInsert_keys_nodup _ _ _ hnd, ?_, ?_⟩
    · intro p hp
      rcases mwInsert_entries _ _ _ hnd p hp with h' | h' | h'
      · have hm : ¬ (mwEligible s = true ∧ suspectIdentityKey s = p.1) := by
          rintro ⟨_, hk⟩
          exact h'.1 hk.symm
        rw [specMaxDays_append_miss _ _ _ hm, specMaxDegree_append_miss _ _ _ hm]
        exact hvals p h'.2
      · obtain ⟨hk, g, hg, hup⟩ := h'
        have hv := hvals (suspectIdentityKey s, g) hg
        rw [hk, specMaxDays_append_hit _ _ _ he rfl, specMaxDegree_append_hit _ _ _ he rfl,
          hup]
        constructor
        · simp only [mwUpdate]
          rw [hv.1, mwDays_eq_spec]
        · simp only [mwUpdate]
          rw [hv.2]
      · obtain ⟨hk, hnotin, hnew⟩ := h'
        have hnex : ¬ ∃ s' ∈ P, mwEligible s' = true ∧
            suspectIdentityKey s' = suspectIdentityKey s := by
          intro hc
          exact hnotin ((hkeys (suspectIdentityKey s)).mpr hc)
        have hempty : specGroup P (suspectIdentityKey s) = [] := by
          unfold specGroup
          rw [List.filter_eq_nil_iff]
          intro a ha hc
          simp only [Bool.and_eq_true, decide_eq_true_eq] at hc
          exact hnex ⟨a, ha, hc.1, hc.2⟩
        have hd0 : specMaxDays P (suspectIdentityKey s) = 0 := by
          simp [specMaxDays, hempty]
        have hg0 : specMaxDegree P (suspectIdentityKey s) = 0 := by
          simp [specMaxDegree, hempty]
        rw [hk, specMaxDays_append_hit _ _ _ he rfl, specMaxDegree_append_hit _ _ _ he rfl,
          hnew, hd0, hg0]
        constructor
        · simp [mwDays_eq_spec]
        · simp
    · intro k
      rw [mwInsert_keys_mem, hkeys k]
      constructor
      · rintro (⟨s', hs', he', hk'⟩ | hk)
        · exact ⟨s', List.mem_append_left _ hs', he', hk'⟩
        · exact ⟨s, List.mem_append_right _ (List.mem_singleton_self s), he, hk.symm⟩
      · rintro ⟨s', hs', he', hk'⟩
        rcases List.mem_append.mp hs' with hm | hm
        · exact Or.inl ⟨s', hm, he', hk'⟩
        · rw [List.mem_singleton.mp hm] at hk'
          exact Or.inr hk'.symm
  · rw [if_neg he]
    refine ⟨hnd, ?_, ?_⟩
    · intro p hp
      have hm : ¬ (mwEligible s = true ∧ suspectIdentityKey s = p.1) := fun hc => he hc.1
      rw [specMaxDays_append_miss _ _ _ hm, specMaxDegree_append_miss _ _ _ hm]
      exact hvals p hp
    · intro k
      rw [hkeys k]
      constructor
      · rintro ⟨s', hs', he', hk'⟩
        exact ⟨s', List.mem_append_left _ hs', he', hk'⟩
      · rintro ⟨s', hs', he', hk'⟩
        rcases List.mem_append.mp hs' with hm | hm
        · exact ⟨s', hm, he', hk'⟩
        · rw [List.mem_singleton.mp hm] at he'
          exact absurd he' he

/-- The grouping invariant holds after scanning any suffix. -/
theorem mwInv_run (ss : List MWSuspect) (P : List MWSuspect)
    (acc : List (String × MWGroup)) (h : MWInv P acc) :
    MWInv (P ++ ss)
      (ss.foldl (fun acc s =>
        if mwEligible s then mwInsert (suspectIdentityKey s) s acc else acc) acc) := by
  induction ss generalizing P acc with
  | nil => simpa using h
  | cons s ss ih =>
      have h1 := mwInv_step P acc s h
      have h2 := ih (P ++ [s]) _ h1
      simpa [List.append_assoc] using h2

/-- The grouping invariant for the full scan. -/
theorem mwGroups_inv (suspects : List MWSuspect) : MWInv suspects (mwGroups suspects) := by
  have h := mwInv_run suspects [] [] (by refine ⟨by simp, by simp, ?_⟩; intro k; simp)
  simpa [mwGroups] using h

/-- Every produced item carries its group's claim-side maxima, a positive
ranking computed as their product, and the reward constant. -/
theorem mwItems_mem (suspects : List MWSuspect) (it : MWItem) (hit : it ∈ mwItems suspects) :
    0 < it.ranking ∧ it.ranking = it.maxDaysWanted * it.maxCrimeDegree ∧
    it.rewardAmount = it.ranking * 20000000 ∧
    ∃ k, it.maxDaysWanted = specMaxDays suspects k ∧
      it.maxCrimeDegree = specMaxDegree suspects k ∧
      ∃ s ∈ suspects, mwEligible s = true ∧ suspectIdentityKey s = k := by
  obtain ⟨hnd, hvals, hkeys⟩ := mwGroups_inv suspects
  simp only [mwItems, List.mem_filterMap] at hit
  obtain ⟨kg, hkg, hmk⟩ := hit
  by_cases hr : kg.2.maxDaysWanted * kg.2.maxCrimeDegree = 0
  · simp [hr] at hmk
  · simp only [if_neg hr, Option.some.injEq] at hmk
    have hv := hvals kg hkg
    cases hmk
    refine ⟨Nat.pos_of_ne_zero hr, rfl, rfl, kg.1, hv.1, hv.2, ?_⟩
    exact (hkeys kg.1).mp (List.mem_map_of_mem Prod.fst hkg)

/-- Every identity group of eligible suspects with a positive claim-side
ranking yields an item. -/
theorem mwItems_complete (suspects : List MWSuspect) (k : String)
    (hex : ∃ s ∈ suspects, mwEligible s = true ∧ suspectIdentityKey s = k)
    (hpos : 0 < specMaxDays suspects k * specMaxDegree suspects k) :
    ∃ it ∈ mwItems suspects, it.maxDaysWanted = specMaxDays suspects k ∧
      it.maxCrimeDegree = specMaxDegree suspects k ∧
      it.ranking = specMaxDays suspects k * specMaxDegree suspects k ∧
      it.rewardAmount = it.ranking * 20000000 := by
  obtain ⟨hnd, hvals, hkeys⟩ := mwGroups_inv suspects
  have hkmem : k ∈ (mwGroups suspects).map Prod.fst := (hkeys k).mpr hex
  rcases List.mem_map.mp hkmem with ⟨kg, hkg, hk1⟩
  have hv := hvals kg hkg
  have hrk : kg.2.maxDaysWanted * kg.2.maxCrimeDegree ≠ 0 := by
    rw [hv.1, hv.2, hk1]
    omega
  have hrk2 := Nat.mul_ne_zero_iff.mp hrk
  refine ⟨⟨kg.2.rep.id, kg.2.rep.firstName, kg.2.rep.lastName, kg.2.rep.nationalId,
      kg.2.rep.phone, kg.2.rep.photo, kg.2.maxDaysWanted, kg.2.maxCrimeDegree,
      kg.2.maxDaysWanted * kg.2.maxCrimeDegree,
      kg.2.maxDaysWanted * kg.2.maxCrimeDegree * 20000000⟩, ?_, ?_, ?_, ?_, rfl⟩
  · exact List.mem_filterMap.mpr ⟨kg, hkg, by simp [Nat.mul_eq_zero, hrk2.1, hrk2.2]⟩
  · simpa using hv.1.trans (by rw [hk1])
  · simpa using hv.2.trans (by rw [hk1])
  · simp only
    rw [hv.1, hv.2, hk1]

/-- C6: the most-wanted aggregation output is sorted descending by ranking and
truncated to `max(limit, 1)` items (default limit 10); every returned item is a
produced group item; every produced item has a positive ranking equal to
`max_days_wanted × max_crime_degree`, reward `ranking × 20,000,000`, and its
maxima are the claim-side per-group maxima (days: `max(1, days since proposal)`
for non-closed cases, 0 for closed; degree: max crime-level degree) of an
eligible identity group; and every eligible identity group with positive
claim-side ranking yields such an item. -/
theorem most_wanted_correct (suspects : List MWSuspect) (limitParam : Option Int)
    (k : String) :
    List.Pairwise (fun a b : MWItem => b.ranking ≤ a.ranking)
      (mostWanted suspects limitParam) ∧
    (mostWanted suspects limitParam).length
      = min (max (mwLimit limitParam) 1).toNat (mwItems suspects).length ∧
    (∀ it ∈ mostWanted suspects limitParam, it ∈ mwItems suspects) ∧
    (∀ it ∈ mwItems suspects,
      0 < it.ranking ∧ it.ranking = it.maxDaysWanted * it.maxCrimeDegree ∧
      it.rewardAmount = it.ranking * 20000000 ∧
      ∃ k', it.maxDaysWanted = specMaxDays suspects k' ∧
        it.maxCrimeDegree = specMaxDegree suspects k' ∧
        ∃ s ∈ suspects, mwEligible s = true ∧ suspectIdentityKey s = k') ∧
    ((∃ s ∈ suspects, mwEligible s = true ∧ suspectIdentityKey s = k) →
      0 < specMaxDays suspects k * specMaxDegree suspects k →
      ∃ it ∈ mwItems suspects, it.maxDaysWanted = specMaxDays suspects k ∧
        it.maxCrimeDegree = specMaxDegree suspects k ∧
        it.ranking = specMaxDays suspects k * specMaxDegree suspects k ∧
        it.rewardAmount = it.ranking * 20000000) := by
  have hsorted := @List.sorted_mergeSort MWItem
    (fun a b : MWItem => decide (b.ranking ≤ a.ranking))
    (fun a b c hab hbc => by
      simp only [decide_eq_true_eq] at hab hbc ⊢
      exact Nat.le_trans hbc hab)
    (fun a b => by
      simp only [Bool.or_eq_true, decide_eq_true_eq]
      exact Nat.le_total b.ranking a.ranking)
    (mwItems suspects)
  have hsorted2 : List.Pairwise (fun a b : MWItem => b.ranking ≤ a.ranking)
      ((mwItems suspects).mergeSort (fun a b => decide (b.ranking ≤ a.ranking))) :=
    hsorted.imp (fun h => of_decide_eq_true h)
  refine ⟨?_, ?_, ?_, fun it hit => mwItems_mem suspects it hit,
    fun hex hpos => mwItems_complete suspects k hex hpos⟩
  · exact List.Pairwise.sublist (List.take_sublist _ _) hsorted2
  · simp [mostWanted, List.length_take,
      (List.mergeSort_perm (mwItems suspects) _).length_eq]
  · intro it hit
    unfold mostWanted at hit
    exact (List.mergeSort_perm (mwItems suspects) _).mem_iff.mp (List.mem_of_mem_take hit)

/-- Witness for C6: a single approved level-1 suspect (captain-approved,
non-critical, open case, wanted 5 days, national id "12") forms the group
"nid:12" with ranking 5 × 3 and reward 300,000,000. -/
theorem most_wanted_correct_witness :
    (∃ s ∈ [(⟨1, "Ann", "Lee", "12", "555", none, SuspectStatus.approved,
        some ⟨some true, none⟩, CrimeLevel.level1, CaseStatus.active, 5⟩ : MWSuspect)],
      mwEligible s = true ∧ suspectIdentityKey s = "nid:12") ∧
    0 < specMaxDays [(⟨1, "Ann", "Lee", "12", "555", none, SuspectStatus.approved,
        some ⟨some true, none⟩, CrimeLevel.level1, CaseStatus.active, 5⟩ : MWSuspect)] "nid:12"
      * specMaxDegree [(⟨1, "Ann", "Lee", "12", "555", none, SuspectStatus.approved,
        some ⟨some true, none⟩, CrimeLevel.level1, CaseStatus.active, 5⟩ : MWSuspect)] "nid:12" ∧
    ∃ it ∈ mwItems [(⟨1, "Ann", "Lee", "12", "555", none, SuspectStatus.approved,
        some ⟨some true, none⟩, CrimeLevel.level1, CaseStatus.active, 5⟩ : MWSuspect)],
      it.maxDaysWanted = specMaxDays [(⟨1, "Ann", "Lee", "12", "555", none,
        SuspectStatus.approved, some ⟨some true, none⟩, CrimeLevel.level1,
        CaseStatus.active, 5⟩ : MWSuspect)] "nid:12" ∧
      it.maxCrimeDegree = specMaxDegree [(⟨1, "Ann", "Lee", "12", "555", none,
        SuspectStatus.approved, some ⟨some true, none⟩, CrimeLevel.level1,
        CaseStatus.active, 5⟩ : MWSuspect)] "nid:12" ∧
      it.ranking = specMaxDays [(⟨1, "Ann", "Lee", "12", "555", none,
        SuspectStatus.approved, some ⟨some true, none⟩, CrimeLevel.level1,
        CaseStatus.active, 5⟩ : MWSuspect)] "nid:12"
        * specMaxDegree [(⟨1, "Ann", "Lee", "12", "555", none,
        SuspectStatus.approved, some ⟨some true, none⟩, CrimeLevel.level1,
        CaseStatus.active, 5⟩ : MWSuspect)] "nid:12" ∧
      it.rewardAmount = it.ranking * 20000000 :=
  ⟨by decide, by decide,
    (most_wanted_correct [(⟨1, "Ann", "Lee", "12", "555", none, SuspectStatus.approved,
        some ⟨some true, none⟩, CrimeLevel.level1, CaseStatus.active, 5⟩ : MWSuspect)]
      none "nid:12").2.2.2.2 (by decide) (by decide)⟩
